import Mathlib

/-!
Verification of the concentrated-liquidity IL hedge simulator
(src/streamlit_app.py). The Python source is shallowly embedded over ℝ:
pure numeric functions become Lean functions on ℝ, the per-step
simulation loop becomes structural recursion over the list of price
samples with an explicit fee state, and the fallible hedge-size
computation (which yields float inf on a zero denominator) returns
Option ℝ. Random Gaussian draws are modelled as an arbitrary list of
reals.
-/

namespace Hedger

/-- Token A holdings at price p, from calculate_xA:
L * (1/sqrt(p) - 1/sqrt(p_max)). -/
noncomputable def calculate_xA (L_val p p_max_val : ℝ) : ℝ :=
  L_val * (1 / Real.sqrt p - 1 / Real.sqrt p_max_val)

/-- Token B holdings at price p, from calculate_xB:
L * (sqrt(p) - sqrt(p_min)). -/
noncomputable def calculate_xB (L_val p p_min_val : ℝ) : ℝ :=
  L_val * (Real.sqrt p - Real.sqrt p_min_val)

/-- Amount of token A sold moving from p0 up to p, from
calculate_delta_xA_sell: L * (1/sqrt(p0) - 1/sqrt(p)). -/
noncomputable def calculate_delta_xA_sell (L_val p0_val p : ℝ) : ℝ :=
  L_val * (1 / Real.sqrt p0_val - 1 / Real.sqrt p)

/-- Amount of token B sold moving from p0 down to p, from
calculate_delta_xB_sell: L * (sqrt(p0) - sqrt(p)). -/
noncomputable def calculate_delta_xB_sell (L_val p0_val p : ℝ) : ℝ :=
  L_val * (Real.sqrt p0_val - Real.sqrt p)

/-- Impermanent loss when the price rises, from calculate_il_A:
(p - sqrt(p0*p)) * delta_xA_sell. -/
noncomputable def calculate_il_A (p p0_val delta_xA_sell_val : ℝ) : ℝ :=
  (p - Real.sqrt (p0_val * p)) * delta_xA_sell_val

/-- Impermanent loss when the price falls, from calculate_il_B:
(1/p - 1/sqrt(p0*p)) * delta_xB_sell. -/
noncomputable def calculate_il_B (p p0_val delta_xB_sell_val : ℝ) : ℝ :=
  (1 / p - 1 / Real.sqrt (p0_val * p)) * delta_xB_sell_val

/-- Boundary impermanent loss on the A side, IL evaluated at pmax
(the quantity IL_A_max of the spec, computed as in the code from
calculate_il_A at pmax with dxA_max). -/
noncomputable def IL_A_max (L_val p0_val p_max_val : ℝ) : ℝ :=
  calculate_il_A p_max_val p0_val (calculate_delta_xA_sell L_val p0_val p_max_val)

/-- Boundary impermanent loss on the B side, IL evaluated at pmin. -/
noncomputable def IL_B_max (L_val p0_val p_min_val : ℝ) : ℝ :=
  calculate_il_B p_min_val p0_val (calculate_delta_xB_sell L_val p0_val p_min_val)

/-- Unconditional A-side hedge size from the top level of the script:
none models the float inf produced when pmax - p0 == 0, otherwise
((pmax - sqrt(p0*pmax)) / (pmax - p0)) * dxA_max. -/
noncomputable def xA_hedge (L_val p0_val p_max_val : ℝ) : Option ℝ :=
  if p_max_val - p0_val = 0 then none
  else some (((p_max_val - Real.sqrt (p0_val * p_max_val)) / (p_max_val - p0_val)) *
    calculate_delta_xA_sell L_val p0_val p_max_val)

/-- Unconditional B-side hedge size from the top level of the script:
none models the float inf produced when 1/pmin - 1/p0 == 0, otherwise
((1/pmin - 1/sqrt(p0*pmin)) / (1/pmin - 1/p0)) * dxB_max. -/
noncomputable def xB_hedge (L_val p0_val p_min_val : ℝ) : Option ℝ :=
  if 1 / p_min_val - 1 / p0_val = 0 then none
  else some (((1 / p_min_val - 1 / Real.sqrt (p0_val * p_min_val)) /
    (1 / p_min_val - 1 / p0_val)) * calculate_delta_xB_sell L_val p0_val p_min_val)

/-- Modelled from the spec: threshold-activated A-side hedge sizing is not
implemented in src/streamlit_app.py (only the unconditional hedge is);
following the spec words, xA_hedge(pUp) = IL_A_max / (pmax - pUp) when
pUp < pmax, else 0. -/
noncomputable def xA_hedge_threshold (L_val p0_val p_max_val pUp : ℝ) : ℝ :=
  if pUp < p_max_val then IL_A_max L_val p0_val p_max_val / (p_max_val - pUp) else 0

/-- Modelled from the spec: threshold-activated B-side hedge sizing is not
implemented in src/streamlit_app.py; following the spec words,
xB_hedge(pDown) = IL_B_max / (1/pmin - 1/pDown) when pDown > pmin, else 0. -/
noncomputable def xB_hedge_threshold (L_val p0_val p_min_val pDown : ℝ) : ℝ :=
  if p_min_val < pDown then
    IL_B_max L_val p0_val p_min_val / (1 / p_min_val - 1 / pDown)
  else 0

/-- Full-range token A amount of the spec text, L * (1/sqrt(pmin) - 1/sqrt(pmax)). -/
noncomputable def fullRangeA (L_val p_min_val p_max_val : ℝ) : ℝ :=
  L_val * (1 / Real.sqrt p_min_val - 1 / Real.sqrt p_max_val)

/-- Full-range token B amount of the spec text, L * (sqrt(pmax) - sqrt(pmin)). -/
noncomputable def fullRangeB (L_val p_min_val p_max_val : ℝ) : ℝ :=
  L_val * (Real.sqrt p_max_val - Real.sqrt p_min_val)

/-- One record of the simulation loop: the values appended to
il_list, hedge_list, net_list, fees_A_list, fees_B_list at one step. -/
structure StepRecord where
  il : ℝ
  hedge : ℝ
  net : ℝ
  feesA : ℝ
  feesB : ℝ

/-- Mutable state threaded through the fee part of the loop:
prev_xA_for_fee_calc, prev_xB_for_fee_calc and the two accumulators. -/
structure FeeState where
  prevXA : ℝ
  prevXB : ℝ
  feesA : ℝ
  feesB : ℝ

/-- Instantaneous impermanent loss recorded at price p, the branch
`if p >= p0_val` of the loop body. -/
noncomputable def ilAt (L_val p0_val p : ℝ) : ℝ :=
  if p0_val ≤ p then calculate_il_A p p0_val (calculate_delta_xA_sell L_val p0_val p)
  else calculate_il_B p p0_val (calculate_delta_xB_sell L_val p0_val p)

/-- Hedge mark-to-market PnL recorded at price p, the branch
`if p >= p0_val` of the loop body with the fixed hedge sizes. -/
noncomputable def hedgeAt (p0_val xA_hedge_val xB_hedge_val p : ℝ) : ℝ :=
  if p0_val ≤ p then xA_hedge_val * (p - p0_val)
  else xB_hedge_val * (1 / p - 1 / p0_val)

/-- Fee update of one loop iteration with i > 0: pPrev is p_arr[i-1],
p the current price; holdings are recomputed at p and fees accrue on the
positive holding change in the direction of the price move. -/
noncomputable def feeStep (L_val p_min_val p_max_val fee_rate_val pPrev p : ℝ)
    (s : FeeState) : FeeState :=
  let current_xA := calculate_xA L_val p p_max_val
  let current_xB := calculate_xB L_val p p_min_val
  let newFeesB :=
    if pPrev < p then
      (if 0 < current_xB - s.prevXB then
        s.feesB + (current_xB - s.prevXB) * fee_rate_val
      else s.feesB)
    else s.feesB
  let newFeesA :=
    if p < pPrev then
      (if 0 < current_xA - s.prevXA then
        s.feesA + (current_xA - s.prevXA) * fee_rate_val
      else s.feesA)
    else s.feesA
  ⟨current_xA, current_xB, newFeesA, newFeesB⟩

/-- Iterations i = 1, 2, ... of the loop in compute_il_hedge_pnl_and_fees:
pPrev is the previous price sample and s the fee state after the previous
iteration. -/
noncomputable def simTail (L_val p0_val p_min_val p_max_val fee_rate_val
    xA_hedge_val xB_hedge_val : ℝ) : ℝ → FeeState → List ℝ → List StepRecord
  | _, _, [] => []
  | pPrev, s, p :: rest =>
    let s2 := feeStep L_val p_min_val p_max_val fee_rate_val pPrev p s
    ⟨ilAt L_val p0_val p, hedgeAt p0_val xA_hedge_val xB_hedge_val p,
      hedgeAt p0_val xA_hedge_val xB_hedge_val p - ilAt L_val p0_val p,
      s2.feesA, s2.feesB⟩ ::
    simTail L_val p0_val p_min_val p_max_val fee_rate_val xA_hedge_val
      xB_hedge_val p s2 rest

/-- Initial fee state: token holdings evaluated at p0 and zero
accumulated fees, matching lines 166-172 of the source. -/
noncomputable def initFeeState (L_val p0_val p_min_val p_max_val : ℝ) : FeeState :=
  ⟨calculate_xA L_val p0_val p_max_val, calculate_xB L_val p0_val p_min_val, 0, 0⟩

/-- The loop of compute_il_hedge_pnl_and_fees: the first iteration (i = 0)
records IL, hedge and net at p_arr[0] with zero fees and does not touch
the fee state; the remaining iterations run simTail. -/
noncomputable def compute_il_hedge_pnl_and_fees :
    List ℝ → ℝ → ℝ → ℝ → ℝ → ℝ → ℝ → ℝ → List StepRecord
  | [], _, _, _, _, _, _, _ => []
  | p :: rest, L_val, p0_val, p_min_val, p_max_val, fee_rate_val,
      xA_hedge_val, xB_hedge_val =>
    ⟨ilAt L_val p0_val p, hedgeAt p0_val xA_hedge_val xB_hedge_val p,
      hedgeAt p0_val xA_hedge_val xB_hedge_val p - ilAt L_val p0_val p,
      (initFeeState L_val p0_val p_min_val p_max_val).feesA,
      (initFeeState L_val p0_val p_min_val p_max_val).feesB⟩ ::
    simTail L_val p0_val p_min_val p_max_val fee_rate_val xA_hedge_val
      xB_hedge_val p (initFeeState L_val p0_val p_min_val p_max_val) rest

/-- Per-draw log return, from line 159 of the source:
(mu - 0.5 * vol^2) * dt + vol * w. -/
noncomputable def log_returns (mu vol dt : ℝ) (W : List ℝ) : List ℝ :=
  W.map (fun w => (mu - 0.5 * vol ^ 2) * dt + vol * w)

/-- Inclusive running sum, the embedding of np.cumsum. -/
noncomputable def cumsumFrom (acc : ℝ) : List ℝ → List ℝ
  | [] => []
  | x :: xs => (acc + x) :: cumsumFrom (acc + x) xs

/-- np.cumsum starting from an empty sum. -/
noncomputable def cumsum (xs : List ℝ) : List ℝ := cumsumFrom 0 xs

/-- Simulated GBM price path, from line 160 of the source:
p0 * exp(cumsum(log_returns)). -/
noncomputable def p_path (p0_val mu vol dt : ℝ) (W : List ℝ) : List ℝ :=
  (cumsum (log_returns mu vol dt W)).map (fun s => p0_val * Real.exp s)

/-- Mark-to-market PnL of one hedge leg opened at p0: the A leg when the
side flag is true, the B leg otherwise. -/
noncomputable def legPnL (p0_val xA_hedge_val xB_hedge_val : ℝ) (sideA : Bool)
    (p : ℝ) : ℝ :=
  if sideA then xA_hedge_val * (p - p0_val)
  else xB_hedge_val * (1 / p - 1 / p0_val)

/-- Ledger of the spec's crossing contract: the active hedge side and the
PnL realized from legs already closed at crossings. -/
structure HedgeLedger where
  sideA : Bool
  realized : ℝ

/-- Spec-side engine for the crossing contract (written from the spec
words, to be compared with the source loop): the side flag switches when
the price crosses p0; on a switch the outgoing leg is settled at the
crossing price p0 into the realized running total and the incoming leg
starts fresh at p0; each step records realized plus the current leg's
mark-to-market PnL. -/
noncomputable def settleSeries (p0_val xA_hedge_val xB_hedge_val : ℝ) :
    HedgeLedger → List ℝ → List ℝ
  | _, [] => []
  | st, p :: rest =>
    let newSide := if p0_val ≤ p then true else false
    let st2 : HedgeLedger :=
      if newSide = st.sideA then st
      else ⟨newSide,
        st.realized + legPnL p0_val xA_hedge_val xB_hedge_val st.sideA p0_val⟩
    (st2.realized + legPnL p0_val xA_hedge_val xB_hedge_val newSide p) ::
      settleSeries p0_val xA_hedge_val xB_hedge_val st2 rest

/-! Helper lemmas. -/

lemma sqrt_quarter : Real.sqrt (1 / 4) = 1 / 2 := by
  rw [show (1 / 4 : ℝ) = (1 / 2) ^ 2 by norm_num, Real.sqrt_sq (by norm_num)]

lemma sqrt_four : Real.sqrt 4 = 2 := by
  rw [show (4 : ℝ) = 2 ^ 2 by norm_num, Real.sqrt_sq (by norm_num)]

lemma sqrt_nine : Real.sqrt 9 = 3 := by
  rw [show (9 : ℝ) = 3 ^ 2 by norm_num, Real.sqrt_sq (by norm_num)]

lemma sqrt_sixteen : Real.sqrt 16 = 4 := by
  rw [show (16 : ℝ) = 4 ^ 2 by norm_num, Real.sqrt_sq (by norm_num)]

lemma cumsumFrom_length (acc : ℝ) (l : List ℝ) :
    (cumsumFrom acc l).length = l.length := by
  induction l generalizing acc with
  | nil => rfl
  | cons x xs ih => simp [cumsumFrom, ih]

lemma p_path_length (p0_val mu vol dt : ℝ) (W : List ℝ) :
    (p_path p0_val mu vol dt W).length = W.length := by
  simp [p_path, cumsum, log_returns, cumsumFrom_length]

lemma simTail_length (L_val p0_val p_min_val p_max_val fee_rate_val
    xA_hedge_val xB_hedge_val : ℝ) :
    ∀ (l : List ℝ) (pPrev : ℝ) (s : FeeState),
      (simTail L_val p0_val p_min_val p_max_val fee_rate_val xA_hedge_val
        xB_hedge_val pPrev s l).length = l.length := by
  intro l
  induction l with
  | nil => intro pPrev s; rfl
  | cons p rest ih => intro pPrev s; simp [simTail, ih]

lemma compute_length (p_arr : List ℝ)
    (L_val p0_val p_min_val p_max_val fee_rate_val xA_hedge_val xB_hedge_val : ℝ) :
    (compute_il_hedge_pnl_and_fees p_arr L_val p0_val p_min_val p_max_val
      fee_rate_val xA_hedge_val xB_hedge_val).length = p_arr.length := by
  cases p_arr with
  | nil => rfl
  | cons p rest => simp [compute_il_hedge_pnl_and_fees, simTail_length]

lemma simTail_map_il (L_val p0_val p_min_val p_max_val fee_rate_val
    xA_hedge_val xB_hedge_val : ℝ) :
    ∀ (l : List ℝ) (pPrev : ℝ) (s : FeeState),
      (simTail L_val p0_val p_min_val p_max_val fee_rate_val xA_hedge_val
        xB_hedge_val pPrev s l).map (fun r => r.il) =
      l.map (fun p => if p0_val ≤ p
        then calculate_il_A p p0_val (calculate_delta_xA_sell L_val p0_val p)
        else calculate_il_B p p0_val (calculate_delta_xB_sell L_val p0_val p)) := by
  intro l
  induction l with
  | nil => intro pPrev s; rfl
  | cons p rest ih => intro pPrev s; simp [simTail, ilAt, ih]

lemma simTail_map_hedge (L_val p0_val p_min_val p_max_val fee_rate_val
    xA_hedge_val xB_hedge_val : ℝ) :
    ∀ (l : List ℝ) (pPrev : ℝ) (s : FeeState),
      (simTail L_val p0_val p_min_val p_max_val fee_rate_val xA_hedge_val
        xB_hedge_val pPrev s l).map (fun r => r.hedge) =
      l.map (fun p => if p0_val ≤ p then xA_hedge_val * (p - p0_val)
        else xB_hedge_val * (1 / p - 1 / p0_val)) := by
  intro l
  induction l with
  | nil => intro pPrev s; rfl
  | cons p rest ih => intro pPrev s; simp [simTail, hedgeAt, ih]

lemma simTail_net (L_val p0_val p_min_val p_max_val fee_rate_val
    xA_hedge_val xB_hedge_val : ℝ) :
    ∀ (l : List ℝ) (pPrev : ℝ) (s : FeeState),
      ∀ r ∈ simTail L_val p0_val p_min_val p_max_val fee_rate_val xA_hedge_val
        xB_hedge_val pPrev s l, r.net = r.hedge - r.il := by
  intro l
  induction l with
  | nil => intro pPrev s r hr; simp [simTail] at hr
  | cons p rest ih =>
    intro pPrev s r hr
    rw [simTail, List.mem_cons] at hr
    rcases hr with h | h
    · subst h; rfl
    · exact ih p _ r h

lemma compute_map_il (p_arr : List ℝ)
    (L_val p0_val p_min_val p_max_val fee_rate_val xA_hedge_val xB_hedge_val : ℝ) :
    (compute_il_hedge_pnl_and_fees p_arr L_val p0_val p_min_val p_max_val
      fee_rate_val xA_hedge_val xB_hedge_val).map (fun r => r.il) =
    p_arr.map (fun p => if p0_val ≤ p
      then calculate_il_A p p0_val (calculate_delta_xA_sell L_val p0_val p)
      else calculate_il_B p p0_val (calculate_delta_xB_sell L_val p0_val p)) := by
  cases p_arr with
  | nil => rfl
  | cons p rest => simp [compute_il_hedge_pnl_and_fees, ilAt, simTail_map_il]

lemma compute_map_hedge (p_arr : List ℝ)
    (L_val p0_val p_min_val p_max_val fee_rate_val xA_hedge_val xB_hedge_val : ℝ) :
    (compute_il_hedge_pnl_and_fees p_arr L_val p0_val p_min_val p_max_val
      fee_rate_val xA_hedge_val xB_hedge_val).map (fun r => r.hedge) =
    p_arr.map (fun p => if p0_val ≤ p then xA_hedge_val * (p - p0_val)
      else xB_hedge_val * (1 / p - 1 / p0_val)) := by
  cases p_arr with
  | nil => rfl
  | cons p rest => simp [compute_il_hedge_pnl_and_fees, hedgeAt, simTail_map_hedge]

lemma feeStep_feesA_mono (L_val p_min_val p_max_val fee_rate_val pPrev p : ℝ)
    (s : FeeState) (h : 0 ≤ fee_rate_val) :
    s.feesA ≤ (feeStep L_val p_min_val p_max_val fee_rate_val pPrev p s).feesA := by
  simp only [feeStep]
  split_ifs with h1 h2
  · have : 0 ≤ (calculate_xA L_val p p_max_val - s.prevXA) * fee_rate_val :=
      mul_nonneg (le_of_lt h2) h
    linarith
  · exact le_refl _
  · exact le_refl _

lemma feeStep_feesB_mono (L_val p_min_val p_max_val fee_rate_val pPrev p : ℝ)
    (s : FeeState) (h : 0 ≤ fee_rate_val) :
    s.feesB ≤ (feeStep L_val p_min_val p_max_val fee_rate_val pPrev p s).feesB := by
  simp only [feeStep]
  split_ifs with h1 h2
  · have : 0 ≤ (calculate_xB L_val p p_min_val - s.prevXB) * fee_rate_val :=
      mul_nonneg (le_of_lt h2) h
    linarith
  · exact le_refl _
  · exact le_refl _

lemma simTail_chain_feesA (L_val p0_val p_min_val p_max_val fee_rate_val
    xA_hedge_val xB_hedge_val : ℝ) (h : 0 ≤ fee_rate_val) :
    ∀ (l : List ℝ) (pPrev : ℝ) (s : FeeState),
      List.Chain (fun a b => a ≤ b) s.feesA
        ((simTail L_val p0_val p_min_val p_max_val fee_rate_val xA_hedge_val
          xB_hedge_val pPrev s l).map (fun r => r.feesA)) := by
  intro l
  induction l with
  | nil => intro pPrev s; exact List.Chain.nil
  | cons p rest ih =>
    intro pPrev s
    simp only [simTail, List.map_cons]
    exact List.Chain.cons
      (feeStep_feesA_mono L_val p_min_val p_max_val fee_rate_val pPrev p s h)
      (ih p _)

lemma simTail_chain_feesB (L_val p0_val p_min_val p_max_val fee_rate_val
    xA_hedge_val xB_hedge_val : ℝ) (h : 0 ≤ fee_rate_val) :
    ∀ (l : List ℝ) (pPrev : ℝ) (s : FeeState),
      List.Chain (fun a b => a ≤ b) s.feesB
        ((simTail L_val p0_val p_min_val p_max_val fee_rate_val xA_hedge_val
          xB_hedge_val pPrev s l).map (fun r => r.feesB)) := by
  intro l
  induction l with
  | nil => intro pPrev s; exact List.Chain.nil
  | cons p rest ih =>
    intro pPrev s
    simp only [simTail, List.map_cons]
    exact List.Chain.cons
      (feeStep_feesB_mono L_val p_min_val p_max_val fee_rate_val pPrev p s h)
      (ih p _)

lemma legPnL_at_p0 (p0_val xA_hedge_val xB_hedge_val : ℝ) (b : Bool) :
    legPnL p0_val xA_hedge_val xB_hedge_val b p0_val = 0 := by
  cases b <;> simp [legPnL]

lemma settleSeries_eq_map (p0_val xA_hedge_val xB_hedge_val : ℝ) :
    ∀ (l : List ℝ) (b : Bool),
      settleSeries p0_val xA_hedge_val xB_hedge_val ⟨b, 0⟩ l =
      l.map (fun p => if p0_val ≤ p then xA_hedge_val * (p - p0_val)
        else xB_hedge_val * (1 / p - 1 / p0_val)) := by
  intro l
  induction l with
  | nil => intro b; rfl
  | cons p rest ih =>
    intro b
    by_cases hp : p0_val ≤ p <;> cases b <;>
      simp [settleSeries, hp, legPnL, legPnL_at_p0, ih]

/-! Claim theorems. -/

/-- Claim C1: for every valid configuration (0 < pmin < p0 < pmax, L > 0)
the unconditional hedge sizes are defined (not the infinity branch) and
satisfy xA_hedge * (pmax - p0) = IL_A_max and
xB_hedge * (1/pmin - 1/p0) = IL_B_max exactly in real arithmetic. -/
theorem c1_hedge_offsets_boundary_il (L p0 pmin pmax : ℝ)
    (h1 : 0 < pmin) (h2 : pmin < p0) (h3 : p0 < pmax) (hL : 0 < L) :
    ∃ xa xb, xA_hedge L p0 pmax = some xa ∧ xB_hedge L p0 pmin = some xb ∧
      xa * (pmax - p0) = IL_A_max L p0 pmax ∧
      xb * (1 / pmin - 1 / p0) = IL_B_max L p0 pmin := by
  have hA : pmax - p0 ≠ 0 := sub_ne_zero.mpr (ne_of_gt h3)
  have hBlt : 1 / p0 < 1 / pmin := one_div_lt_one_div_of_lt h1 h2
  have hB : 1 / pmin - 1 / p0 ≠ 0 := ne_of_gt (sub_pos.mpr hBlt)
  refine ⟨((pmax - Real.sqrt (p0 * pmax)) / (pmax - p0)) *
      calculate_delta_xA_sell L p0 pmax,
    ((1 / pmin - 1 / Real.sqrt (p0 * pmin)) / (1 / pmin - 1 / p0)) *
      calculate_delta_xB_sell L p0 pmin, ?_, ?_, ?_, ?_⟩
  · rw [xA_hedge, if_neg hA]
  · rw [xB_hedge, if_neg hB]
  · rw [IL_A_max, calculate_il_A, div_mul_eq_mul_div, div_mul_cancel₀ _ hA]
  · rw [IL_B_max, calculate_il_B, div_mul_eq_mul_div, div_mul_cancel₀ _ hB]

/-- Witness for C1 at the configuration L = 5, p0 = 2, pmin = 1, pmax = 4. -/
theorem c1_witness :
    ((0 : ℝ) < 1 ∧ (1 : ℝ) < 2 ∧ (2 : ℝ) < 4 ∧ (0 : ℝ) < 5) ∧
    (∃ xa xb, xA_hedge 5 2 4 = some xa ∧ xB_hedge 5 2 1 = some xb ∧
      xa * (4 - 2) = IL_A_max 5 2 4 ∧ xb * (1 / 1 - 1 / 2) = IL_B_max 5 2 1) :=
  ⟨⟨by norm_num, by norm_num, by norm_num, by norm_num⟩,
    c1_hedge_offsets_boundary_il 5 2 1 4 (by norm_num) (by norm_num)
      (by norm_num) (by norm_num)⟩

/-- Claim C2: for every price sample of the path the loop records
IL and hedge PnL through the branch selected by p >= p0, using the fixed
hedge sizes passed in as parameters (never re-derived), and the net PnL
record is hedge minus IL at every step. -/
theorem c2_per_step_records (p_arr : List ℝ)
    (L p0 pmin pmax feeRate xa xb : ℝ) :
    (compute_il_hedge_pnl_and_fees p_arr L p0 pmin pmax feeRate xa xb).map
        (fun r => r.il) =
      p_arr.map (fun p => if p0 ≤ p
        then calculate_il_A p p0 (calculate_delta_xA_sell L p0 p)
        else calculate_il_B p p0 (calculate_delta_xB_sell L p0 p)) ∧
    (compute_il_hedge_pnl_and_fees p_arr L p0 pmin pmax feeRate xa xb).map
        (fun r => r.hedge) =
      p_arr.map (fun p => if p0 ≤ p then xa * (p - p0)
        else xb * (1 / p - 1 / p0)) ∧
    ∀ r ∈ compute_il_hedge_pnl_and_fees p_arr L p0 pmin pmax feeRate xa xb,
      r.net = r.hedge - r.il := by
  refine ⟨compute_map_il p_arr L p0 pmin pmax feeRate xa xb,
    compute_map_hedge p_arr L p0 pmin pmax feeRate xa xb, ?_⟩
  cases p_arr with
  | nil => intro r hr; simp [compute_il_hedge_pnl_and_fees] at hr
  | cons p rest =>
    intro r hr
    rw [compute_il_hedge_pnl_and_fees, List.mem_cons] at hr
    rcases hr with h | h
    · subst h; rfl
    · exact simTail_net L p0 pmin pmax feeRate xa xb rest p _ r h

/-- Claim C3, code evaluated at the failing input: with L = 1, p0 = 4,
pmin = 1, pmax = 25, feeRate = 1 and path [9, 16], the code accrues
feesB at step 1 on the holding change measured from p0 = 4
(xB(16) - xB(4) = 2), while the claimed increment is the change between
consecutive path samples, feeRate * (xB(16) - xB(9)) = 1. -/
theorem c3_code_divergence :
    ((compute_il_hedge_pnl_and_fees [9, 16] 1 4 1 25 1 0 0).map
      (fun r => r.feesB)) = [0, 2] ∧
    (calculate_xB 1 16 1 - calculate_xB 1 9 1) * 1 = 1 ∧
    (2 : ℝ) ≠ 1 := by
  refine ⟨?_, ?_, by norm_num⟩
  · norm_num [compute_il_hedge_pnl_and_fees, simTail, feeStep, initFeeState,
      calculate_xA, calculate_xB, sqrt_four, sqrt_nine, sqrt_sixteen,
      Real.sqrt_one]
  · rw [calculate_xB, calculate_xB, sqrt_sixteen, sqrt_nine, Real.sqrt_one]
    norm_num

/-- Counterexample to claim C4: with steps = 2 (a two-draw path) the
price series has length 2, not steps + 1 = 3; the same holds for the
record series of the loop. -/
theorem c4_counterexample :
    (p_path 1 0 0 1 [0, 0]).length = 2 ∧
    (compute_il_hedge_pnl_and_fees (p_path 1 0 0 1 [0, 0])
      1 1 (1 / 2) 2 0 0 0).length = 2 ∧
    (2 : ℕ) ≠ 2 + 1 := by
  refine ⟨?_, ?_, by norm_num⟩
  · simp [p_path_length]
  · simp [compute_length, p_path_length]

/-- Claim C4 amended: all six output series (price and the five series
recorded by the loop) have length steps, not steps + 1: the initial price
p0 is not included as a sample. -/
theorem c4_series_length (L p0 pmin pmax feeRate xa xb mu vol dt : ℝ)
    (steps : ℕ) (hsteps : 1 ≤ steps) (W : List ℝ) (hW : W.length = steps) :
    (p_path p0 mu vol dt W).length = steps ∧
    ((compute_il_hedge_pnl_and_fees (p_path p0 mu vol dt W)
      L p0 pmin pmax feeRate xa xb).map (fun r => r.il)).length = steps ∧
    ((compute_il_hedge_pnl_and_fees (p_path p0 mu vol dt W)
      L p0 pmin pmax feeRate xa xb).map (fun r => r.hedge)).length = steps ∧
    ((compute_il_hedge_pnl_and_fees (p_path p0 mu vol dt W)
      L p0 pmin pmax feeRate xa xb).map (fun r => r.net)).length = steps ∧
    ((compute_il_hedge_pnl_and_fees (p_path p0 mu vol dt W)
      L p0 pmin pmax feeRate xa xb).map (fun r => r.feesA)).length = steps ∧
    ((compute_il_hedge_pnl_and_fees (p_path p0 mu vol dt W)
      L p0 pmin pmax feeRate xa xb).map (fun r => r.feesB)).length = steps := by
  refine ⟨by simp [p_path_length, hW], ?_, ?_, ?_, ?_, ?_⟩ <;>
    simp [compute_length, p_path_length, hW]

/-- Witness for C4 amended at steps = 1, W = [0]. -/
theorem c4_series_length_witness :
    (1 ≤ 1 ∧ ([(0 : ℝ)]).length = 1) ∧
    ((p_path 1 0 0 1 [0]).length = 1 ∧
    ((compute_il_hedge_pnl_and_fees (p_path 1 0 0 1 [0])
      1 1 1 2 0 0 0).map (fun r => r.il)).length = 1 ∧
    ((compute_il_hedge_pnl_and_fees (p_path 1 0 0 1 [0])
      1 1 1 2 0 0 0).map (fun r => r.hedge)).length = 1 ∧
    ((compute_il_hedge_pnl_and_fees (p_path 1 0 0 1 [0])
      1 1 1 2 0 0 0).map (fun r => r.net)).length = 1 ∧
    ((compute_il_hedge_pnl_and_fees (p_path 1 0 0 1 [0])
      1 1 1 2 0 0 0).map (fun r => r.feesA)).length = 1 ∧
    ((compute_il_hedge_pnl_and_fees (p_path 1 0 0 1 [0])
      1 1 1 2 0 0 0).map (fun r => r.feesB)).length = 1) :=
  ⟨⟨le_refl 1, rfl⟩, c4_series_length 1 1 1 2 0 0 0 0 0 1 1 (le_refl 1) [0] rfl⟩

/-- Counterexample to claim C5: in the valid configuration
pmin = 1, p0 = 2, pmax = 4, L = 1, at the price p = 1/4 ≤ pmin the
token-B holding function returns a nonzero (negative) value instead of
the claimed 0: the code has no clamping outside the range. -/
theorem c5_counterexample :
    (0 : ℝ) < 1 ∧ (1 : ℝ) < 2 ∧ (2 : ℝ) < 4 ∧ (1 / 4 : ℝ) ≤ 1 ∧
      calculate_xB 1 (1 / 4) 1 ≠ 0 := by
  refine ⟨by norm_num, by norm_num, by norm_num, by norm_num, ?_⟩
  rw [calculate_xB, sqrt_quarter, Real.sqrt_one]
  norm_num

/-- Claim C5 amended: the boundary equalities hold at p = pmin and
p = pmax exactly (tokenB(pmin) = 0 and tokenA(pmin) equals the full
range's A; tokenA(pmax) = 0 and tokenB(pmax) equals the full range's B),
but the token functions do not clamp for p strictly outside the range. -/
theorem c5_boundary_values (L pmin pmax : ℝ) :
    calculate_xB L pmin pmin = 0 ∧
    calculate_xA L pmin pmax = fullRangeA L pmin pmax ∧
    calculate_xA L pmax pmax = 0 ∧
    calculate_xB L pmax pmin = fullRangeB L pmin pmax := by
  refine ⟨?_, ?_, ?_, ?_⟩
  · rw [calculate_xB, sub_self, mul_zero]
  · rw [calculate_xA, fullRangeA]
  · rw [calculate_xA, sub_self, mul_zero]
  · rw [calculate_xB, fullRangeB]

/-- Claim C6: for every valid configuration the threshold-activated hedge
sizes are exactly 0 when the threshold coincides with its boundary
(pUp = pmax, pDown = pmin); the spec-modelled function returns 0 rather
than dividing by the zero denominator. -/
theorem c6_threshold_degenerate (L p0 pmin pmax : ℝ)
    (h1 : 0 < pmin) (h2 : pmin < p0) (h3 : p0 < pmax) (hL : 0 < L) :
    xA_hedge_threshold L p0 pmax pmax = 0 ∧
    xB_hedge_threshold L p0 pmin pmin = 0 := by
  constructor
  · rw [xA_hedge_threshold, if_neg (lt_irrefl pmax)]
  · rw [xB_hedge_threshold, if_neg (lt_irrefl pmin)]

/-- Witness for C6 at the configuration L = 3, p0 = 1, pmin = 1/2, pmax = 2. -/
theorem c6_witness :
    ((0 : ℝ) < 1 / 2 ∧ (1 / 2 : ℝ) < 1 ∧ (1 : ℝ) < 2 ∧ (0 : ℝ) < 3) ∧
    (xA_hedge_threshold 3 1 2 2 = 0 ∧ xB_hedge_threshold 3 1 (1 / 2) (1 / 2) = 0) :=
  ⟨⟨by norm_num, by norm_num, by norm_num, by norm_num⟩,
    c6_threshold_degenerate 3 1 (1 / 2) 2 (by norm_num) (by norm_num)
      (by norm_num) (by norm_num)⟩

/-- Claim C7: every sample of the generated price path is strictly
positive, for any volatility, any horizon and any draw of increments,
given a positive initial price. -/
theorem c7_path_positive (p0 mu vol dt : ℝ) (W : List ℝ)
    (hvol : 0 ≤ vol) (hdt : 0 < dt) (hp0 : 0 < p0) :
    ∀ x ∈ p_path p0 mu vol dt W, 0 < x := by
  intro x hx
  rw [p_path, List.mem_map] at hx
  obtain ⟨s, _, rfl⟩ := hx
  exact mul_pos hp0 (Real.exp_pos s)

/-- Witness for C7 at p0 = 1, vol = 0, dt = 1, W = [0]. -/
theorem c7_witness :
    ((0 : ℝ) ≤ 0 ∧ (0 : ℝ) < 1 ∧ (0 : ℝ) < 1) ∧
    (∀ x ∈ p_path 1 0 0 1 [0], 0 < x) :=
  ⟨⟨le_refl 0, by norm_num, by norm_num⟩,
    c7_path_positive 1 0 0 1 [0] (le_refl 0) (by norm_num) (by norm_num)⟩

/-- Claim C8: for any path and any feeRate ≥ 0, the feesA and feesB
series recorded by the loop are monotonically non-decreasing in the
step index. -/
theorem c8_fees_monotone (p_arr : List ℝ) (L p0 pmin pmax feeRate xa xb : ℝ)
    (h : 0 ≤ feeRate) :
    List.Chain' (fun a b => a ≤ b)
      ((compute_il_hedge_pnl_and_fees p_arr L p0 pmin pmax feeRate xa xb).map
        (fun r => r.feesA)) ∧
    List.Chain' (fun a b => a ≤ b)
      ((compute_il_hedge_pnl_and_fees p_arr L p0 pmin pmax feeRate xa xb).map
        (fun r => r.feesB)) := by
  cases p_arr with
  | nil => exact ⟨trivial, trivial⟩
  | cons p rest =>
    constructor
    · simp only [compute_il_hedge_pnl_and_fees, List.map_cons]
      exact simTail_chain_feesA L p0 pmin pmax feeRate xa xb h rest p
        (initFeeState L p0 pmin pmax)
    · simp only [compute_il_hedge_pnl_and_fees, List.map_cons]
      exact simTail_chain_feesB L p0 pmin pmax feeRate xa xb h rest p
        (initFeeState L p0 pmin pmax)

/-- Witness for C8 at feeRate = 1 and the one-sample path [1]. -/
theorem c8_witness :
    (0 : ℝ) ≤ 1 ∧
    (List.Chain' (fun a b => a ≤ b)
      ((compute_il_hedge_pnl_and_fees [1] 1 1 1 1 1 0 0).map
        (fun r => r.feesA)) ∧
    List.Chain' (fun a b => a ≤ b)
      ((compute_il_hedge_pnl_and_fees [1] 1 1 1 1 1 0 0).map
        (fun r => r.feesB))) :=
  ⟨by norm_num, c8_fees_monotone [1] 1 1 1 1 1 0 0 (by norm_num)⟩

/-- Claim C9: the crossing contract. Both hedge legs are worth exactly 0
at the crossing price p0, so a leg settled (realized) at a crossing
contributes exactly 0, and the series of hedge PnL records produced by
the source loop coincides, on every path (in particular one crossing p0
exactly once), with the series of the spec's settle-on-crossing ledger
engine, which realizes the outgoing leg at p0 and starts the incoming
leg fresh at p0: no PnL is double-counted or lost at a crossing. -/
theorem c9_crossing_settlement (p_arr : List ℝ)
    (L p0 pmin pmax feeRate xa xb : ℝ) :
    (∀ b : Bool, legPnL p0 xa xb b p0 = 0) ∧
    settleSeries p0 xa xb ⟨true, 0⟩ p_arr =
      (compute_il_hedge_pnl_and_fees p_arr L p0 pmin pmax feeRate xa xb).map
        (fun r => r.hedge) := by
  refine ⟨legPnL_at_p0 p0 xa xb, ?_⟩
  rw [compute_map_hedge, settleSeries_eq_map]

/-- Claim C10: the first element of the generated price series is the
price after one stochastic step, p0 * exp((mu - sigma^2/2) dt + sigma W0),
and (whenever that step's log return is nonzero) differs from p0; the
path has exactly one sample per draw, so p0 itself is not a sample; yet
the fee computation initializes its previous-holdings state from token
holdings evaluated at p0. -/
theorem c10_first_sample (L p0 pmin pmax mu vol dt w : ℝ) (W2 : List ℝ)
    (hp0 : 0 < p0) (hr : (mu - 0.5 * vol ^ 2) * dt + vol * w ≠ 0) :
    (p_path p0 mu vol dt (w :: W2)).head? =
      some (p0 * Real.exp ((mu - 0.5 * vol ^ 2) * dt + vol * w)) ∧
    (p_path p0 mu vol dt (w :: W2)).head? ≠ some p0 ∧
    (p_path p0 mu vol dt (w :: W2)).length = (w :: W2).length ∧
    initFeeState L p0 pmin pmax =
      ⟨calculate_xA L p0 pmax, calculate_xB L p0 pmin, 0, 0⟩ := by
  have h1 : (p_path p0 mu vol dt (w :: W2)).head? =
      some (p0 * Real.exp ((mu - 0.5 * vol ^ 2) * dt + vol * w)) := by
    simp [p_path, cumsum, log_returns, cumsumFrom]
  refine ⟨h1, ?_, p_path_length p0 mu vol dt (w :: W2), rfl⟩
  rw [h1]
  intro hc
  have h2 : p0 * Real.exp ((mu - 0.5 * vol ^ 2) * dt + vol * w) = p0 :=
    Option.some.inj hc
  have h3 : Real.exp ((mu - 0.5 * vol ^ 2) * dt + vol * w) = 1 := by
    have := h2.trans (mul_one p0).symm
    exact mul_left_cancel₀ (ne_of_gt hp0) this
  have h4 : (mu - 0.5 * vol ^ 2) * dt + vol * w = 0 := by
    have := h3.trans Real.exp_zero.symm
    exact Real.exp_eq_exp.mp this
  exact hr h4

/-- Witness for C10 at p0 = 1, mu = 0, vol = 1, dt = 2, w = 3. -/
theorem c10_witness :
    ((0 : ℝ) < 1 ∧ ((0 : ℝ) - 0.5 * 1 ^ 2) * 2 + 1 * 3 ≠ 0) ∧
    ((p_path 1 0 1 2 [3]).head? =
      some (1 * Real.exp ((0 - 0.5 * 1 ^ 2) * 2 + 1 * 3)) ∧
    (p_path 1 0 1 2 [3]).head? ≠ some 1 ∧
    (p_path 1 0 1 2 [3]).length = ([3] : List ℝ).length ∧
    initFeeState 1 1 1 2 = ⟨calculate_xA 1 1 2, calculate_xB 1 1 1, 0, 0⟩) :=
  ⟨⟨by norm_num, by norm_num⟩,
    c10_first_sample 1 1 1 2 0 1 2 3 [] (by norm_num) (by norm_num)⟩

end Hedger
